import Mathlib

/-!
Verification of the ttg tracking/collision core against its specification.

The Python sources are embedded shallowly:

* machine floats become exact rationals (`ℚ`); every comparison and
  arithmetic step the proofs rely on is far from any rounding boundary,
  and `int(...)` truncation is modelled by `pyInt`;
* Python `int` coordinates become `ℤ`, `uint16` depth samples become `ℕ`;
* calls into OpenCV / NumPy (`cv2.pointPolygonTest`, contour extraction,
  morphology, array differencing) are external library calls, not code of
  this repository; they are modelled as explicit oracle parameters with
  the same call structure, so every theorem quantifies over their results;
* stateful objects become explicit state records threaded through the
  translated methods.
-/

namespace TTG

/-- Python `int(q)` on a real value: truncation toward zero. -/
def pyInt (q : ℚ) : ℤ := if q < 0 then -(Int.floor (-q)) else Int.floor q

/-- Integer square root by downward search; models `int((n) ** 0.5)` for the
small arguments that occur here (`n ≤ 800`), where the floating-point square
root is correctly rounded and truncation agrees with the exact value. -/
def isqrtLoop : Nat → Nat → Nat
  | 0, _ => 0
  | (k+1), n => if (k+1)*(k+1) ≤ n then k+1 else isqrtLoop k n

/-- `isqrt n` is the greatest `k ≤ n` with `k * k ≤ n`. -/
def isqrt (n : Nat) : Nat := isqrtLoop n n

/-- `common/config.py`: `COLLISION_DEPTH_THRESHOLD = 2.0` (meters). -/
def COLLISION_DEPTH_THRESHOLD : ℚ := 2

/-- `common/config.py`: `ENABLE_ANGLE_COLLISION_CHECK = False`. -/
def ENABLE_ANGLE_COLLISION_CHECK : Bool := false

/-- A detection or hit: `(x, y, depth_m)`. -/
abbrev Hit := ℤ × ℤ × ℚ

/-- `backend/screen_manager.py`: the fields of `ScreenManager` read by the
tracking core (`screen_area`, `screen_depth`; both `Optional`). -/
structure ScreenManager where
  screenArea : Option (List (ℤ × ℤ))
  screenDepth : Option ℚ

/-- `ScreenManager.get_screen_area_points`: returns the stored points. -/
def ScreenManager.getScreenAreaPoints (sm : ScreenManager) : Option (List (ℤ × ℤ)) :=
  sm.screenArea

/-- `ScreenManager.get_screen_depth`: `self.screen_depth or 0.0`; a stored
`0.0` is falsy in Python, so the result coincides with `getD 0`. -/
def ScreenManager.getScreenDepth (sm : ScreenManager) : ℚ :=
  sm.screenDepth.getD 0

/-- The Python truthiness-plus-length guard
`if points and len(points) >= 3` on an `Optional[List]`. -/
def polyUsable (points : Option (List (ℤ × ℤ))) : Bool :=
  match points with
  | none => false
  | some ps => ps ≠ [] && ps.length ≥ 3

/-- `common/hit_detection.py`: the `_collision_state` string of
`FrontCollisionDetector` (`"none"`, `"hit_front"`, `"falling"`). -/
inductive CollState where
  | csNone
  | csHitFront
  | csFalling
deriving DecidableEq

/-- `common/hit_detection.py`: the mutable fields of `FrontCollisionDetector`
touched by `update_and_check` (`_prev_center`, `_last_center`,
`_last_reached_coord`, `_collision_state`).  The constructor-only fields
`_depth_at_hit` and `_prev_depth` are never read or written afterwards and
are omitted. -/
structure FCDState where
  prevCenter : Option (ℤ × ℤ)
  lastCenter : Option (ℤ × ℤ)
  lastReachedCoord : Option Hit
  collisionState : CollState
deriving DecidableEq

/-- The state of a freshly constructed `FrontCollisionDetector`. -/
def FCDState.init : FCDState :=
  { prevCenter := none, lastCenter := none, lastReachedCoord := none,
    collisionState := .csNone }

/-- Oracles standing for the OpenCV/NumPy geometry used by
`FrontCollisionDetector.update_and_check`:

* `inside poly p` models `cv2.pointPolygonTest(poly, p, False) >= 0`;
* `angleHit prev last p poly` models the whole trajectory-angle branch
  (the `v_prev`/`v_curr` guards, `np.arccos` angle and
  `cv2.pointPolygonTest(..., True)` edge distance conditions). -/
structure GeomOracle where
  inside : List (ℤ × ℤ) → ℤ × ℤ → Bool
  angleHit : Option (ℤ × ℤ) → Option (ℤ × ℤ) → ℤ × ℤ → List (ℤ × ℤ) → Bool

/-- The `hit_detected` computation of
`FrontCollisionDetector.update_and_check`: with at least 3 polygon points, a
point-in-polygon test, falling back (when angle checking is enabled and a
previous center exists) to the trajectory-angle branch; with fewer points no
spatial check runs and `hit_detected` stays `False`. -/
def candidateHitDetected (g : GeomOracle) (enableAngle : Bool)
    (sm : ScreenManager) (s : FCDState) (p : ℤ × ℤ) : Bool :=
  let points := sm.getScreenAreaPoints
  if polyUsable points then
    let poly := points.getD []
    if g.inside poly p then true
    else if enableAngle && s.lastCenter.isSome then
      g.angleHit s.prevCenter s.lastCenter p poly
    else false
  else false

/-- `FrontCollisionDetector.update_and_check`, translated line by line.
`enableAngle` is the `_enable_angle_check` field (default
`ENABLE_ANGLE_COLLISION_CHECK`); `sm` is the `screen_manager` the detector
was constructed with.  Returns the emitted hit (or `none`) and the updated
detector state. -/
def updateAndCheck (g : GeomOracle) (enableAngle : Bool) (sm : ScreenManager)
    (s : FCDState) (detected : Option Hit) : Option Hit × FCDState :=
  match detected with
  | none =>
      -- no detection: reset internal state
      (none, { prevCenter := s.lastCenter, lastCenter := none,
               lastReachedCoord := none, collisionState := .csNone })
  | some (x, y, depth) =>
      let hitDetected := candidateHitDetected g enableAngle sm s (x, y)
      -- update position history
      let s1 : FCDState := { s with prevCenter := s.lastCenter, lastCenter := some (x, y) }
      -- a depth of 0.00 (or below) is an invalid measurement and never collides
      if depth ≤ 0 then (none, s1)
      else if hitDetected && depth ≤ COLLISION_DEPTH_THRESHOLD then
        (some (x, y, depth),
         { s1 with collisionState := .csNone, lastReachedCoord := some (x, y, depth) })
      else
        (none,
         if s1.collisionState ≠ .csNone then
           { s1 with collisionState := .csNone, lastReachedCoord := none }
         else s1)

/-- `FrontCollisionDetector.get_last_reached_coord`. -/
def getLastReachedCoord (s : FCDState) : Option Hit := s.lastReachedCoord

/-! ## ColorDetector (`backend/ball_tracker.py`) -/

/-- A contour as consumed by `BallTracker.detect_ball` after
`cv2.findContours`: its `cv2.contourArea` and its `cv2.boundingRect`
`(x, y, w, h)`. -/
structure Contour where
  area : ℚ
  rx : ℤ
  ry : ℤ
  rw : ℕ
  rh : ℕ
deriving DecidableEq

/-- The HSV bounds stored in `BallTracker.tracked_ball`; only the presence
of a tracked ball influences `detect_ball`'s control flow (the bounds feed
the `cv2.inRange` masks, which are part of the abstracted contour input). -/
structure TrackedBall where
  satLow : ℕ
  satHigh : ℕ
  valLow : ℕ
  valHigh : ℕ

/-- Python `max(contours, key=cv2.contourArea)`: the first element whose
key is maximal (later elements replace only on strictly greater key). -/
def pickLargest (c : Contour) (rest : List Contour) : Contour :=
  rest.foldl (fun a b => if b.area > a.area then b else a) c

/-- `BallTracker.detect_ball`, translated from `backend/ball_tracker.py`.
The OpenCV segment (`cvtColor`, two `inRange` red-hue masks, `bitwise_or`,
`findContours`) is abstracted: `contours` is the contour list it produced
for the current frame.  `minArea` is `self.min_area` (default 30). -/
def detectBall (trackedBall : Option TrackedBall) (minArea : ℤ)
    (sm : ScreenManager) (contours : List Contour) : Option Hit :=
  match trackedBall with
  | none => none
  | some _ =>
      match contours with
      | [] => none
      | _ =>
          -- minimum-area noise filter
          match contours.filter (fun c => c.area ≥ (minArea : ℚ)) with
          | [] => none
          | c :: rest =>
              let largest := pickLargest c rest
              let ballX := largest.rx + (largest.rw : ℤ) / 2
              let ballY := largest.ry + (largest.rh : ℤ) / 2
              -- `self.screen_manager.get_screen_depth() or 1.0`
              let sd := sm.getScreenDepth
              let depth := if sd = 0 then 1 else sd
              some (ballX, ballY, depth)

/-! ## TrackerSelector (`backend/tracker_selector.py`) -/

/-- `TrackerMode` enum. -/
inductive TrackerMode where
  | color
  | motion
  | hybrid
deriving DecidableEq

/-- The `TrackerSelector` hit counters. -/
structure SelectorStats where
  colorHitCount : ℕ
  motionHitCount : ℕ
  hybridModeSwitchCount : ℕ
deriving DecidableEq

/-- `TrackerSelector.check_target_hit`, translated with the sub-tracker
calls abstracted: `colorResult` / `motionResult` are the values
`self.color_tracker.check_target_hit(frame)` and
`self.motion_tracker.check_target_hit(frame)` would return this tick
(in COLOR and MOTION mode only the corresponding tracker is invoked). -/
def selectorCheckTargetHit (mode : TrackerMode)
    (colorResult motionResult : Option Hit) (st : SelectorStats) :
    Option Hit × SelectorStats :=
  match mode with
  | .color =>
      match colorResult with
      | none => (none, st)
      | some h => (some h, { st with colorHitCount := st.colorHitCount + 1 })
  | .motion =>
      match motionResult with
      | none => (none, st)
      | some h => (some h, { st with motionHitCount := st.motionHitCount + 1 })
  | .hybrid =>
      match colorResult, motionResult with
      | none, none => (none, st)
      | none, some m =>
          (some m, { st with motionHitCount := st.motionHitCount + 1,
                             hybridModeSwitchCount := st.hybridModeSwitchCount + 1 })
      | some c, none =>
          (some c, { st with colorHitCount := st.colorHitCount + 1 })
      | some _, some m =>
          (some m, { st with motionHitCount := st.motionHitCount + 1,
                             hybridModeSwitchCount := st.hybridModeSwitchCount + 1 })

/-! ## MotionBasedTracker (`backend/motion_tracker.py`) -/

/-- A depth frame: a `h × w` grid of `uint16` millimeter samples
(0 and 65535 are the sensor's invalid markers). -/
structure DFrame where
  w : ℕ
  h : ℕ
  data : ℕ → ℕ → ℕ

/-- The per-pixel `Δdepth` float array produced by
`_compute_depth_change_map`; only passed between oracles. -/
def DeltaMap := ℕ → ℕ → ℚ

/-- The binary motion mask after morphological opening; `anyPixel` is
`motion_mask.any()`. -/
structure MotionMask where
  anyPixel : Bool

/-- A candidate dict built by `_detect_moving_objects` and annotated by
`_select_best_candidate` (which adds `approach_confidence`). -/
structure Candidate where
  center : ℤ × ℤ
  area : ℚ
  avgDeltaDepth : ℚ
  depthVariance : ℚ
  approachConfidence : ℚ

/-- Oracles for the OpenCV/NumPy stages of `MotionBasedTracker`:
`computeMap` is `_compute_depth_change_map` (`none` collapses its
`(None, None)` exception result), `detectMoving` is
`_detect_moving_objects`, `selectBest` is `_select_best_candidate`
(which reads `_last_detected_position`, its first argument), `getDepthAt`
is `_get_depth_at_position`, and `inside` is
`cv2.pointPolygonTest(...) >= 0` as in `GeomOracle`. -/
structure MotionOracle where
  computeMap : DFrame → DFrame → Option (DeltaMap × MotionMask)
  detectMoving : MotionMask → DeltaMap → DFrame → List Candidate
  selectBest : Option (ℤ × ℤ) → List Candidate → Option Candidate
  getDepthAt : ℤ → ℤ → DFrame → Option ℚ
  inside : List (ℤ × ℤ) → ℤ × ℤ → Bool

/-- The mutable state of `MotionBasedTracker`: the two-slot depth-frame
deque and the tracking fields; `approachConfidenceThreshold` is the
settable `approach_confidence_threshold` (default 0.5). -/
structure MTState where
  depthFrameBuffer : List DFrame
  lastDetectedPosition : Option (ℤ × ℤ)
  lastDetectedDepth : Option ℚ
  lastHitCoord : Option Hit
  approachConfidenceThreshold : ℚ

/-- `deque(maxlen=2).append`: keep only the two most recent frames. -/
def pushMax2 (buf : List DFrame) (f : DFrame) : List DFrame :=
  let b := buf ++ [f]
  if b.length ≤ 2 then b else b.drop (b.length - 2)

/-- `MotionBasedTracker._check_collision_depth`: the object depth must be
within `tolerance_m` (default 0.1) of a strictly positive screen depth. -/
def checkCollisionDepth (objectDepthM screenDepthM toleranceM : ℚ) : Bool :=
  if screenDepthM ≤ 0 then false
  else |objectDepthM - screenDepthM| ≤ toleranceM

/-- `MotionBasedTracker.check_target_hit`, translated step by step;
`depthFrame` is what `self.camera_manager.get_depth_frame()` returned this
tick (`none` also covers the absent-camera case). -/
def motionCheckTargetHit (o : MotionOracle) (depthFrame : Option DFrame)
    (sm : ScreenManager) (s : MTState) : Option Hit × MTState :=
  match depthFrame with
  | none => (none, s)
  | some f =>
      let buf := pushMax2 s.depthFrameBuffer f
      let s := { s with depthFrameBuffer := buf }
      match buf with
      | framePrev :: frameCurr :: _ =>
          match o.computeMap framePrev frameCurr with
          | none => (none, { s with lastDetectedPosition := none })
          | some (delta, mask) =>
              if !mask.anyPixel then (none, { s with lastDetectedPosition := none })
              else
                match o.detectMoving mask delta frameCurr with
                | [] => (none, { s with lastDetectedPosition := none })
                | c :: cs =>
                    match o.selectBest s.lastDetectedPosition (c :: cs) with
                    | none => (none, s)
                    | some best =>
                        if best.approachConfidence < s.approachConfidenceThreshold then
                          (none, s)
                        else
                          let cx := best.center.1
                          let cy := best.center.2
                          match o.getDepthAt cx cy frameCurr with
                          | none => (none, s)
                          | some depthM =>
                              if depthM ≤ 0 then (none, s)
                              else
                                let screenDepthM := sm.getScreenDepth
                                if !checkCollisionDepth depthM screenDepthM (1/10) then
                                  (none, s)
                                else
                                  let points := sm.getScreenAreaPoints
                                  let inScreen :=
                                    if polyUsable points then
                                      o.inside (points.getD []) (cx, cy)
                                    else true
                                  if !inScreen then (none, s)
                                  else
                                    (some (cx, cy, depthM),
                                     { s with
                                       lastDetectedPosition := some (cx, cy),
                                       lastDetectedDepth := some depthM,
                                       lastHitCoord := some (cx, cy, depthM) })
      | _ => (none, s)

/-! ## DepthSampler (`common/depth_service.py`) -/

/-- `DepthConfig`: valid depth range, interpolation radius, reference depth. -/
structure DepthConfig where
  minValidDepthM : ℚ := 1/2
  maxValidDepthM : ℚ := 5
  interpolationRadius : ℕ := 10
  referenceDepthM : ℚ := 2

/-- The camera-manager surface read by `DepthMeasurementService`: the RGB
frame dimensions (`get_rgb_dimensions` / the cached width-height attributes)
and the current depth frame (`get_depth_frame`). -/
structure Camera where
  rgbW : ℕ
  rgbH : ℕ
  depthFrame : Option DFrame

/-- The mutable fields of `DepthMeasurementService`. -/
structure DMSState where
  lastValidDepthM : ℚ
  measurementCount : ℕ
  cacheHitCount : ℕ
  cachedDepthFrameWidth : Option ℕ
  cachedDepthFrameHeight : Option ℕ

/-- A freshly constructed service: the cache starts at the reference depth. -/
def DMSState.init (cfg : DepthConfig) : DMSState :=
  { lastValidDepthM := cfg.referenceDepthM, measurementCount := 0,
    cacheHitCount := 0, cachedDepthFrameWidth := none,
    cachedDepthFrameHeight := none }

/-- `DepthMeasurementService.is_valid_depth`. -/
def isValidDepth (cfg : DepthConfig) (depthM : ℚ) : Bool :=
  if depthM < 0 then false
  else cfg.minValidDepthM ≤ depthM && depthM ≤ cfg.maxValidDepthM

/-- The neighbor scan of `_interpolate_from_neighbors`: every in-bounds
pixel in the square of the given radius whose sample is a valid
(non-marker) value, paired with its truncated Euclidean pixel distance;
`dy` is the outer loop, `dx` the inner, both ascending from `-radius`. -/
def neighborSamples (f : DFrame) (x y : ℤ) (radius : ℕ) : List (ℕ × ℕ) :=
  (List.range (2*radius+1)).flatMap (fun i =>
    (List.range (2*radius+1)).filterMap (fun j =>
      let dy : ℤ := (i : ℤ) - radius
      let dx : ℤ := (j : ℤ) - radius
      let nx := x + dx
      let ny := y + dy
      if 0 ≤ nx ∧ nx < (f.w : ℤ) ∧ 0 ≤ ny ∧ ny < (f.h : ℤ) then
        let v := f.data ny.toNat nx.toNat
        if 0 < v ∧ v < 65535 then
          some (v, isqrt ((dx*dx + dy*dy).toNat))
        else none
      else none))

/-- `DepthMeasurementService._calculate_weighted_average`: inverse-distance
weighting `w = 1/(distance+1)`, result truncated to an integer millimeter
value. -/
def calculateWeightedAverage (values : List (ℕ × ℕ)) : ℤ :=
  match values with
  | [] => 0
  | _ =>
      let totalWeight : ℚ := (values.map (fun p => (1 : ℚ) / ((p.2 : ℚ) + 1))).sum
      let weightedSum : ℚ :=
        (values.map (fun p => (p.1 : ℚ) * ((1 : ℚ) / ((p.2 : ℚ) + 1)))).sum
      if 0 < totalWeight then pyInt (weightedSum / totalWeight) else 0

/-- Python `max` over a nonempty list (never called on `[]` here). -/
def pyMax (l : List ℕ) : ℕ :=
  match l with
  | [] => 0
  | x :: r => r.foldl Nat.max x

/-- Python `min` over a nonempty list (never called on `[]` here). -/
def pyMin (l : List ℕ) : ℕ :=
  match l with
  | [] => 0
  | x :: r => r.foldl Nat.min x

/-- `DepthMeasurementService._filter_background_pixels`: when the sample
range exceeds the 200 mm step threshold, keep only samples at most
`min + int(0.2·range)` (retrying with `min + int(0.5·range)`, and finally
the original list).  `int(range·0.2)` and `int(range·0.5)` agree with the
natural-number divisions `range/5` and `range/2` for every `uint16` range.
The `referenceDepthMm` parameter is unused, as in the source. -/
def filterBackgroundPixels (values : List (ℕ × ℕ)) (referenceDepthMm : ℤ) :
    List (ℕ × ℕ) :=
  if values.length < 3 then values
  else
    let depthsOnly := values.map (·.1)
    let maxDepth := pyMax depthsOnly
    let minDepth := pyMin depthsOnly
    let depthRange := maxDepth - minDepth
    if depthRange > 200 then
      let depthThreshold := minDepth + depthRange / 5
      match values.filter (fun p => p.1 ≤ depthThreshold) with
      | [] =>
          let depthThreshold2 := minDepth + depthRange / 2
          match values.filter (fun p => p.1 ≤ depthThreshold2) with
          | [] => values
          | q :: qs => q :: qs
      | q :: qs => q :: qs
    else values

/-- `DepthMeasurementService._interpolate_from_neighbors`: weighted average
of the valid neighbors, background filtering, re-averaging and validation;
`-1.0` when no usable value is found. -/
def interpolateFromNeighbors (cfg : DepthConfig) (frame : Option DFrame)
    (x y : ℤ) (isSmallObject : Bool) : ℚ :=
  match frame with
  | none => -1
  | some f =>
      let radius :=
        if isSmallObject then cfg.interpolationRadius * 2 else cfg.interpolationRadius
      match neighborSamples f x y radius with
      | [] => -1
      | _ :: _ =>
          let validValues := neighborSamples f x y radius
          let weightedDepthMm := calculateWeightedAverage validValues
          let weightedDepthM : ℚ := (weightedDepthMm : ℚ) / 1000
          let filtered := filterBackgroundPixels validValues weightedDepthMm
          let viaFiltered : Option ℚ :=
            match filtered with
            | [] => none
            | _ :: _ =>
                let filteredDepthMm := calculateWeightedAverage filtered
                let filteredDepthM : ℚ := (filteredDepthMm : ℚ) / 1000
                if isValidDepth cfg filteredDepthM then some filteredDepthM else none
          match viaFiltered with
          | some v => v
          | none => if isValidDepth cfg weightedDepthM then weightedDepthM else -1

/-- `DepthMeasurementService._validate_and_interpolate`: sensor invalid
markers trigger small-object interpolation; otherwise the sample is
converted to meters and range-checked, interpolating when out of range;
`-1.0` signals failure. -/
def validateAndInterpolate (cfg : DepthConfig) (depthMm : ℕ)
    (frame : Option DFrame) (x y : ℤ) : ℚ :=
  if depthMm = 0 ∨ depthMm ≥ 65535 then
    let interpolatedM := interpolateFromNeighbors cfg frame x y true
    if 0 ≤ interpolatedM ∧ isValidDepth cfg interpolatedM then interpolatedM else -1
  else
    let depthM : ℚ := (depthMm : ℚ) / 1000
    if isValidDepth cfg depthM then depthM
    else
      let interpolatedM := interpolateFromNeighbors cfg frame x y false
      if 0 ≤ interpolatedM ∧ isValidDepth cfg interpolatedM then interpolatedM else -1

/-- `DepthMeasurementService._scale_rgb_to_depth_coords`: dynamic scaling
from RGB to depth resolution with caching of the depth dimensions and
clamping into the depth frame.  `none` models the `ZeroDivisionError` a
zero RGB dimension would raise (caught by `measure_at_rgb_coords`). -/
def scaleRgbToDepthCoords (cam : Camera) (st : DMSState) (x y : ℤ) :
    Option (ℤ × ℤ) × DMSState :=
  let dims : ℕ × ℕ × DMSState :=
    match st.cachedDepthFrameWidth, st.cachedDepthFrameHeight with
    | some w, some h => (w, h, st)
    | _, _ =>
        match cam.depthFrame with
        | some f => (f.w, f.h,
            { st with cachedDepthFrameWidth := some f.w,
                      cachedDepthFrameHeight := some f.h })
        | none => (640, 360, st)
  let depthW := dims.1
  let depthH := dims.2.1
  let st' := dims.2.2
  if cam.rgbW = 0 ∨ cam.rgbH = 0 then (none, st')
  else
    let scaleX : ℚ := (depthW : ℚ) / (cam.rgbW : ℚ)
    let scaleY : ℚ := (depthH : ℚ) / (cam.rgbH : ℚ)
    let depthX := max 0 (min (pyInt ((x : ℚ) * scaleX)) ((depthW : ℤ) - 1))
    let depthY := max 0 (min (pyInt ((y : ℚ) * scaleY)) ((depthH : ℤ) - 1))
    (some (depthX, depthY), st')

/-- `DepthMeasurementService._get_fallback_depth_m`: return the cached last
valid value. -/
def getFallbackDepthM (st : DMSState) : ℚ × DMSState :=
  (st.lastValidDepthM, { st with cacheHitCount := st.cacheHitCount + 1 })

/-- `DepthMeasurementService.measure_at_rgb_coords`: scale the coordinate,
fetch and bounds-check the depth frame, validate/interpolate the sample,
cache a non-negative result; every failure path (no frame, out-of-bounds
coordinate, failed validation, exception) returns the cached fallback. -/
def measureAtRgbCoords (cfg : DepthConfig) (cam : Camera) (st : DMSState)
    (x y : ℤ) : ℚ × DMSState :=
  let st := { st with measurementCount := st.measurementCount + 1 }
  match scaleRgbToDepthCoords cam st x y with
  | (none, st1) => getFallbackDepthM st1
  | (some (depthX, depthY), st1) =>
      match cam.depthFrame with
      | none => getFallbackDepthM st1
      | some f =>
          if ¬(0 ≤ depthX ∧ depthX < (f.w : ℤ) ∧ 0 ≤ depthY ∧ depthY < (f.h : ℤ)) then
            getFallbackDepthM st1
          else
            let depthMm := f.data depthY.toNat depthX.toNat
            let depthM := validateAndInterpolate cfg depthMm (some f) depthX depthY
            if 0 ≤ depthM then (depthM, { st1 with lastValidDepthM := depthM })
            else getFallbackDepthM st1

/-! ## Concrete test fixtures -/

/-- A concrete stand-in for `cv2.pointPolygonTest(poly, p, False) >= 0` on
the axis-aligned square with corners `(0,0)` and `(100,100)` (matching the
real test's outcome at every probed point): containment in the square. -/
def squareInside (poly : List (ℤ × ℤ)) (p : ℤ × ℤ) : Bool :=
  match poly with
  | [(0, 0), (100, 0), (100, 100), (0, 100)] =>
      (0 ≤ p.1 && p.1 ≤ 100) && (0 ≤ p.2 && p.2 ≤ 100)
  | _ => false

/-- Concrete geometry oracle: square containment, no angle hits. -/
def geomEx : GeomOracle := ⟨squareInside, fun _ _ _ _ => false⟩

/-- A screen manager configured with the square screen area and a 1 m
screen depth. -/
def smSquare : ScreenManager :=
  ⟨some [(0, 0), (100, 0), (100, 100), (0, 100)], some 1⟩

/-! ## Claims about the collision detector -/

/-- C1 (amended): for a detection strictly inside the screen polygon with
`0 < depth ≤` threshold, the first `update_and_check` call yields the hit,
and an immediately repeated call with the same position and depth (no
intervening `None` tick) yields the *same hit again*: the detector re-arms
immediately on emission, so it emits on every qualifying tick rather than
at most once per unbroken approach. -/
theorem updateAndCheck_repeat_hits (g : GeomOracle) (ea : Bool)
    (sm : ScreenManager) (s : FCDState) (x y : ℤ) (d : ℚ)
    (hpoly : polyUsable sm.getScreenAreaPoints = true)
    (hin : g.inside (sm.getScreenAreaPoints.getD []) (x, y) = true)
    (hd0 : 0 < d) (hdT : d ≤ COLLISION_DEPTH_THRESHOLD) :
    (updateAndCheck g ea sm s (some (x, y, d))).1 = some (x, y, d) ∧
    (updateAndCheck g ea sm
      (updateAndCheck g ea sm s (some (x, y, d))).2 (some (x, y, d))).1 =
        some (x, y, d) := by
  have hnot : ¬ d ≤ 0 := not_le.mpr hd0
  constructor <;>
    simp [updateAndCheck, candidateHitDetected, hpoly, hin, hnot, hdT]

/-- C1 witness: the amended behavior at a concrete in-square detection. -/
theorem updateAndCheck_repeat_hits_witness :
    (updateAndCheck geomEx false smSquare FCDState.init (some (50, 50, 1))).1 =
      some (50, 50, 1) ∧
    (updateAndCheck geomEx false smSquare
      (updateAndCheck geomEx false smSquare FCDState.init (some (50, 50, 1))).2
      (some (50, 50, 1))).1 = some (50, 50, 1) :=
  updateAndCheck_repeat_hits geomEx false smSquare FCDState.init 50 50 1
    (by decide) (by decide) (by norm_num) (by norm_num [COLLISION_DEPTH_THRESHOLD])

/-- C1 counterexample: for the in-square detection `(50,50)` at depth 1 m
(inside, depth ≤ threshold), the second immediate `update_and_check` call
with the same position and depth yields a hit again, not `none` as the
claim requires. -/
theorem updateAndCheck_second_call_hits_again :
    (updateAndCheck geomEx false smSquare
      (updateAndCheck geomEx false smSquare FCDState.init (some (50, 50, 1))).2
      (some (50, 50, 1))).1 = some (50, 50, 1) ∧
    squareInside [(0, 0), (100, 0), (100, 100), (0, 100)] (50, 50) = true ∧
    ((1 : ℚ) ≤ COLLISION_DEPTH_THRESHOLD) := by
  decide

/-- C2: for a fixed point inside the screen polygon, `update_and_check`
returns a hit exactly when the depth lies in `(0, 2]` meters; a
non-positive depth is rejected regardless of position. -/
theorem updateAndCheck_depth_gate (g : GeomOracle) (ea : Bool)
    (sm : ScreenManager) (s : FCDState) (x y : ℤ) (d : ℚ)
    (hpoly : polyUsable sm.getScreenAreaPoints = true)
    (hin : g.inside (sm.getScreenAreaPoints.getD []) (x, y) = true) :
    ((updateAndCheck g ea sm s (some (x, y, d))).1 = some (x, y, d) ↔
      (0 < d ∧ d ≤ 2)) ∧
    (∀ (sm' : ScreenManager) (s' : FCDState) (x' y' : ℤ) (d' : ℚ), d' ≤ 0 →
      (updateAndCheck g ea sm' s' (some (x', y', d'))).1 = none) := by
  constructor
  · constructor
    · intro hres
      by_contra hcon
      rw [updateAndCheck] at hres
      simp only [candidateHitDetected, hpoly, hin, if_true] at hres
      rcases le_or_lt d 0 with hle | hpos
      · simp [hle] at hres
      · have hd2 : ¬ d ≤ 2 := by
          by_contra h2
          exact hcon ⟨hpos, h2⟩
        simp [not_le.mpr hpos, COLLISION_DEPTH_THRESHOLD, hd2] at hres
    · rintro ⟨hpos, h2⟩
      simp [updateAndCheck, candidateHitDetected, hpoly, hin,
        not_le.mpr hpos, COLLISION_DEPTH_THRESHOLD, h2]
  · intro sm' s' x' y' d' hle
    simp [updateAndCheck, hle]

/-- C2 witness: at `(50,50)` the gate admits depth 1 m and `2` m exactly,
and rejects depth `0`. -/
theorem updateAndCheck_depth_gate_witness :
    ((updateAndCheck geomEx false smSquare FCDState.init (some (50, 50, 1))).1 =
      some (50, 50, 1)) ∧
    ((updateAndCheck geomEx false smSquare FCDState.init (some (50, 50, 0))).1 =
      none) := by
  have h := updateAndCheck_depth_gate geomEx false smSquare FCDState.init 50 50 1
    (by decide) (by decide)
  exact ⟨h.1.mpr (by norm_num), h.2 smSquare FCDState.init 50 50 0 (by norm_num)⟩

/-- C5 (amended): on a `Some` tick whose candidate-hit check fails
(spatially outside, or depth beyond the threshold, with a valid positive
depth), the detector returns no hit, its collision state is (still) Idle —
Idle is the initial state and is preserved by every tick — but `last_reached` is *not*
cleared when the state was already Idle: it keeps its previous value, so a
subsequent `get_last_reached_coord` still returns the previous hit.
`last_reached` is cleared only by a `None` tick (or when the state was not
Idle, which never happens). -/
theorem updateAndCheck_fail_keeps_lastReached (g : GeomOracle) (ea : Bool)
    (sm : ScreenManager) (s : FCDState) (x y : ℤ) (d : ℚ)
    (hd0 : 0 < d)
    (hfail : candidateHitDetected g ea sm s (x, y) = false ∨
      COLLISION_DEPTH_THRESHOLD < d) :
    (updateAndCheck g ea sm s (some (x, y, d))).1 = none ∧
    (updateAndCheck g ea sm s (some (x, y, d))).2.collisionState = .csNone ∧
    (updateAndCheck g ea sm s (some (x, y, d))).2.lastReachedCoord =
      (if s.collisionState = .csNone then s.lastReachedCoord else none) ∧
    (s.collisionState = .csNone → ∀ (det : Option Hit),
      (updateAndCheck g ea sm s det).2.collisionState = .csNone) := by
  have hnot : ¬ d ≤ 0 := not_le.mpr hd0
  have hgate : ¬ (candidateHitDetected g ea sm s (x, y) = true ∧
      d ≤ COLLISION_DEPTH_THRESHOLD) := by
    rintro ⟨h1, h2⟩
    rcases hfail with hf | hf
    · rw [hf] at h1; exact Bool.false_ne_true h1
    · exact absurd h2 (not_le.mpr hf)
  refine ⟨?_, ?_, ?_, ?_⟩
  · rw [updateAndCheck]
    simp only [hnot, if_false]
    rw [if_neg (by simpa [Bool.and_eq_true, decide_eq_true_eq] using hgate)]
  · rw [updateAndCheck]
    simp only [hnot, if_false]
    rw [if_neg (by simpa [Bool.and_eq_true, decide_eq_true_eq] using hgate)]
    by_cases hs : s.collisionState = .csNone <;> simp [hs]
  · rw [updateAndCheck]
    simp only [hnot, if_false]
    rw [if_neg (by simpa [Bool.and_eq_true, decide_eq_true_eq] using hgate)]
    by_cases hs : s.collisionState = .csNone <;> simp [hs]
  · intro hs det
    match det with
    | none => simp [updateAndCheck]
    | some (x', y', d') =>
        rw [updateAndCheck]
        dsimp only
        split
        · exact hs
        · split
          · rfl
          · simp [hs]

/-- C5 witness: the amended behavior at a concrete outside detection. -/
theorem updateAndCheck_fail_keeps_lastReached_witness :
    (updateAndCheck geomEx false smSquare FCDState.init (some (200, 200, 1))).1 =
      none ∧
    (updateAndCheck geomEx false smSquare FCDState.init
      (some (200, 200, 1))).2.lastReachedCoord =
      (if FCDState.init.collisionState = .csNone then
        FCDState.init.lastReachedCoord else none) := by
  have h := updateAndCheck_fail_keeps_lastReached geomEx false smSquare
    FCDState.init 200 200 1 (by norm_num) (Or.inl (by decide))
  exact ⟨h.1, h.2.2.1⟩

/-- C5 counterexample: after a hit at `(50,50,1)` (state Idle,
`last_reached = (50,50,1)`), feeding the spatially-outside detection
`(200,200,1)` returns no hit but does *not* clear `last_reached`:
`get_last_reached_coord` still returns `(50,50,1)`, where the claim
requires `none`. -/
theorem updateAndCheck_fail_lastReached_not_cleared :
    (updateAndCheck geomEx false smSquare
      (updateAndCheck geomEx false smSquare FCDState.init (some (50, 50, 1))).2
      (some (200, 200, 1))).1 = none ∧
    getLastReachedCoord
      (updateAndCheck geomEx false smSquare
        (updateAndCheck geomEx false smSquare FCDState.init (some (50, 50, 1))).2
        (some (200, 200, 1))).2 = some (50, 50, 1) := by
  decide

/-! ## Claims about the tracker selector -/

/-- C6: HYBRID-mode arbitration of `TrackerSelector.check_target_hit`:
both sub-detectors fail ⇒ no hit and unchanged counters; only motion
succeeds ⇒ motion's hit with `motion_hit_count` incremented; only color
succeeds ⇒ color's hit; both succeed (equal or not) ⇒ motion's hit with
the hybrid fallback/switch counter incremented. -/
theorem selector_hybrid_arbitration (st : SelectorStats) :
    (selectorCheckTargetHit .hybrid none none st = (none, st)) ∧
    (∀ m : Hit, selectorCheckTargetHit .hybrid none (some m) st =
      (some m, { st with motionHitCount := st.motionHitCount + 1,
                         hybridModeSwitchCount := st.hybridModeSwitchCount + 1 })) ∧
    (∀ c : Hit, selectorCheckTargetHit .hybrid (some c) none st =
      (some c, { st with colorHitCount := st.colorHitCount + 1 })) ∧
    (∀ c m : Hit,
      (selectorCheckTargetHit .hybrid (some c) (some m) st).1 = some m ∧
      (selectorCheckTargetHit .hybrid (some c) (some m) st).2.hybridModeSwitchCount =
        st.hybridModeSwitchCount + 1 ∧
      (selectorCheckTargetHit .hybrid (some c) (some m) st).2.motionHitCount =
        st.motionHitCount + 1) :=
  ⟨rfl, fun _ => rfl, fun _ => rfl, fun _ _ => ⟨rfl, rfl, rfl⟩⟩

/-! ## Claims about the motion tracker -/

/-- A short polygon point list (`None`, or fewer than 3 points) fails the
`if points and len(points) >= 3` guard. -/
theorem polyUsable_eq_false_of_short (points : Option (List (ℤ × ℤ)))
    (h : (points.getD []).length < 3) : polyUsable points = false := by
  cases points with
  | none => rfl
  | some ps =>
      simp only [Option.getD_some] at h
      simp only [polyUsable, Bool.and_eq_false_iff]
      right
      simpa using h

/-- A depth frame of constant 1000 mm samples, used as an arbitrary frame
for the motion-path fixtures (its content is irrelevant: the differencing
stages are oracles). -/
def dframeA : DFrame := ⟨4, 4, fun _ _ => 1000⟩

/-- A concrete motion candidate at `(3,4)` with approach confidence 0.6. -/
def candEx : Candidate :=
  { center := (3, 4), area := 100, avgDeltaDepth := -60,
    depthVariance := 10, approachConfidence := 3/5 }

/-- Concrete motion oracle: the differencing stages report motion and the
single candidate `candEx`, the depth lookup reports 1 m, and the
containment test reports "outside" for *every* point. -/
def motionOracleEx : MotionOracle :=
  { computeMap := fun _ _ => some (fun _ _ => 0, ⟨true⟩),
    detectMoving := fun _ _ _ => [candEx],
    selectBest := fun _ cs => cs.head?,
    getDepthAt := fun _ _ _ => some 1,
    inside := fun _ _ => false }

/-- A screen manager with a degenerate one-point screen area and a 1 m
screen depth. -/
def smDegenerate : ScreenManager := ⟨some [(0, 0)], some 1⟩

/-- Motion tracker state with one buffered frame and default 0.5 approach
confidence threshold. -/
def mtStateEx : MTState :=
  { depthFrameBuffer := [dframeA], lastDetectedPosition := none,
    lastDetectedDepth := none, lastHitCoord := none,
    approachConfidenceThreshold := 1/2 }

/-- Evaluation of the motion pipeline on the fixtures: with only one
screen-area point the polygon stage is skipped and the candidate is
promoted to a hit. -/
theorem motionCheckTargetHit_ex_eval :
    (motionCheckTargetHit motionOracleEx (some dframeA) smDegenerate mtStateEx).1 =
      some (3, 4, 1) := by
  simp only [motionCheckTargetHit, mtStateEx, pushMax2, dframeA, motionOracleEx,
    candEx, smDegenerate, ScreenManager.getScreenDepth,
    ScreenManager.getScreenAreaPoints, checkCollisionDepth, polyUsable]
  norm_num

/-- C4 counterexample: with a one-point (degenerate) screen area, the
motion path `MotionBasedTracker.check_target_hit` still promotes a
detection to a hit — even with a containment test that reports "outside"
everywhere — because the polygon stage is skipped entirely when fewer than
3 points are configured. -/
theorem motion_hit_despite_degenerate_area :
    (motionCheckTargetHit motionOracleEx (some dframeA) smDegenerate mtStateEx).1 =
      some (3, 4, 1) ∧
    (smDegenerate.getScreenAreaPoints.getD []).length < 3 := by
  exact ⟨motionCheckTargetHit_ex_eval, by decide⟩

/-- C4 (amended): with fewer than 3 screen-area points, the color path
(`FrontCollisionDetector.update_and_check`) never emits a hit, for any
detection and any state; the motion path, however, skips the polygon test
entirely in that case, so a motion detection that passes the other gates is
still promoted to a hit (concrete instance with a one-point area and an
everywhere-"outside" containment test). -/
theorem degenerate_area_gates_color_only (g : GeomOracle) (ea : Bool)
    (sm : ScreenManager) (s : FCDState)
    (hlen : (sm.getScreenAreaPoints.getD []).length < 3) :
    (∀ det : Option Hit, (updateAndCheck g ea sm s det).1 = none) ∧
    (motionCheckTargetHit motionOracleEx (some dframeA) smDegenerate mtStateEx).1 =
      some (3, 4, 1) := by
  refine ⟨?_, motionCheckTargetHit_ex_eval⟩
  intro det
  match det with
  | none => simp [updateAndCheck]
  | some (x, y, d) =>
      have hfalse : candidateHitDetected g ea sm s (x, y) = false := by
        simp [candidateHitDetected, polyUsable_eq_false_of_short _ hlen]
      rw [updateAndCheck]
      dsimp only
      rw [hfalse]
      split
      · rfl
      · simp

/-- C4 witness: the amended statement at the degenerate one-point area. -/
theorem degenerate_area_gates_color_only_witness :
    ((updateAndCheck geomEx false smDegenerate FCDState.init
      (some (50, 50, 1))).1 = none) ∧
    (motionCheckTargetHit motionOracleEx (some dframeA) smDegenerate mtStateEx).1 =
      some (3, 4, 1) := by
  have h := degenerate_area_gates_color_only geomEx false smDegenerate
    FCDState.init (by decide)
  exact ⟨h.1 (some (50, 50, 1)), h.2⟩

/-- C10: the motion tracker's own screen-plane depth gate, distinct from
the 2.0 m collision threshold: `check_target_hit` can return a hit only if
the configured screen depth is strictly positive and the hit's depth is
within 0.1 m of it; in particular, while no positive screen depth is
configured, motion hits are impossible. -/
theorem checkCollisionDepth_spec (o s t : ℚ)
    (h : checkCollisionDepth o s t = true) : 0 < s ∧ |o - s| ≤ t := by
  rw [checkCollisionDepth] at h
  split at h
  · exact absurd h (by simp)
  · exact ⟨lt_of_not_le (by assumption), of_decide_eq_true h⟩

/-- C10: the motion tracker's own screen-plane depth gate, distinct from
the 2.0 m collision threshold: `check_target_hit` can return a hit only if
the configured screen depth is strictly positive and the hit's depth is
within 0.1 m of it; in particular, while no positive screen depth is
configured, motion hits are impossible. -/
theorem motion_screen_depth_gate (o : MotionOracle) (df : Option DFrame)
    (sm : ScreenManager) (s : MTState) (cx cy : ℤ) (d : ℚ)
    (hres : (motionCheckTargetHit o df sm s).1 = some (cx, cy, d)) :
    (0 < sm.getScreenDepth ∧ |d - sm.getScreenDepth| ≤ 1/10) ∧
    (∀ (o' : MotionOracle) (df' : Option DFrame) (sm' : ScreenManager)
      (s' : MTState), sm'.getScreenDepth ≤ 0 →
      (motionCheckTargetHit o' df' sm' s').1 = none) := by
  constructor
  · rw [motionCheckTargetHit.eq_def] at hres
    dsimp only at hres
    repeat' split at hres
    all_goals simp only [Option.some.injEq, Prod.mk.injEq, reduceCtorEq] at hres
    all_goals
      obtain ⟨-, -, hdep⟩ := hres
      subst hdep
      refine checkCollisionDepth_spec _ _ _ ?_
      by_contra hne
      rw [Bool.not_eq_true] at hne
      simp_all
  · intro o' df' sm' s' hsd
    rw [motionCheckTargetHit.eq_def]
    dsimp only
    repeat' split
    all_goals (try rfl)
    all_goals simp [checkCollisionDepth, hsd] at *

/-- C10 witness: the depth gate evaluated on the concrete motion fixture
(screen depth 1 m, measured depth 1 m). -/
theorem motion_screen_depth_gate_witness :
    0 < smDegenerate.getScreenDepth ∧
    |(1 : ℚ) - smDegenerate.getScreenDepth| ≤ 1/10 :=
  (motion_screen_depth_gate motionOracleEx (some dframeA) smDegenerate
    mtStateEx 3 4 1 motionCheckTargetHit_ex_eval).1

/-! ## Claims about the color detector -/

theorem pickLargest_mem (c : Contour) (rest : List Contour) :
    pickLargest c rest ∈ c :: rest := by
  induction rest generalizing c with
  | nil => simp [pickLargest]
  | cons b t ih =>
      rw [pickLargest, List.foldl_cons]
      have h := ih (if b.area > c.area then b else c)
      rw [pickLargest] at h
      rcases List.mem_cons.mp h with h1 | h2
      · rw [h1]
        split
        · exact List.mem_cons.mpr (Or.inr (List.mem_cons_self b t))
        · exact List.mem_cons_self c (b :: t)
      · exact List.mem_cons.mpr (Or.inr (List.mem_cons.mpr (Or.inr h2)))

theorem pickLargest_ge (c : Contour) (rest : List Contour) :
    ∀ k ∈ c :: rest, k.area ≤ (pickLargest c rest).area := by
  induction rest generalizing c with
  | nil => intro k hk; simp [pickLargest] at *; simp [hk]
  | cons b t ih =>
      intro k hk
      rw [pickLargest, List.foldl_cons]
      have hstep : ∀ j, j = c ∨ j = b ∨ j ∈ t →
          j.area ≤ (pickLargest (if b.area > c.area then b else c) t).area := by
        intro j hj
        rcases hj with hj | hj | hj
        · subst hj
          split
          · rename_i hgt
            exact le_trans (le_of_lt hgt)
              (ih _ _ (List.mem_cons_self _ _))
          · exact ih _ _ (List.mem_cons_self _ _)
        · subst hj
          split
          · exact ih _ _ (List.mem_cons_self _ _)
          · rename_i hngt
            exact le_trans (le_of_not_lt hngt)
              (ih _ _ (List.mem_cons_self _ _))
        · exact ih _ _ (List.mem_cons.mpr (Or.inr hj))
      rw [pickLargest] at hstep
      rcases List.mem_cons.mp hk with hk1 | hk2
      · exact hstep k (Or.inl hk1)
      · rcases List.mem_cons.mp hk2 with hk3 | hk4
        · exact hstep k (Or.inr (Or.inl hk3))
        · exact hstep k (Or.inr (Or.inr hk4))

/-- C3 (amended): whenever a contour survives the minimum-area filter,
`detect_ball` returns the bounding-box center of the largest surviving
contour together with the *screen depth configured in ScreenManager*
(1.0 m when unset or zero) — not a DepthSampler measurement at that
point. -/
theorem detectBall_center_and_screen_depth (tb : TrackedBall) (minArea : ℤ)
    (sm : ScreenManager) (contours : List Contour) (c : Contour)
    (rest : List Contour)
    (hfil : contours.filter (fun k => k.area ≥ (minArea : ℚ)) = c :: rest) :
    ∃ largest ∈ contours.filter (fun k => k.area ≥ (minArea : ℚ)),
      (∀ k ∈ contours.filter (fun k => k.area ≥ (minArea : ℚ)),
        k.area ≤ largest.area) ∧
      detectBall (some tb) minArea sm contours =
        some (largest.rx + (largest.rw : ℤ) / 2, largest.ry + (largest.rh : ℤ) / 2,
          if sm.getScreenDepth = 0 then 1 else sm.getScreenDepth) := by
  refine ⟨pickLargest c rest, ?_, ?_, ?_⟩
  · rw [hfil]; exact pickLargest_mem c rest
  · rw [hfil]; exact pickLargest_ge c rest
  · cases contours with
    | nil => simp at hfil
    | cons a as =>
        rw [detectBall.eq_def]
        dsimp only
        rw [hfil]

/-- Fixture contours: one below the 30 px minimum area, one above. -/
def contourSmall : Contour := ⟨20, 0, 0, 1, 1⟩

/-- The qualifying contour: area 150, bounding rect `(4, 6, 2, 2)`. -/
def contourEx : Contour := ⟨150, 4, 6, 2, 2⟩

/-- A screen manager whose configured screen depth is 3 m. -/
def smDepth3 : ScreenManager :=
  ⟨some [(0, 0), (100, 0), (100, 100), (0, 100)], some 3⟩

/-- A tracked-ball configuration (default saturation/value bounds). -/
def tbEx : TrackedBall := ⟨100, 255, 100, 255⟩

/-- An 8×8 depth frame of constant 1200 mm (1.2 m) samples. -/
def frameC3 : DFrame := ⟨8, 8, fun _ _ => 1200⟩

/-- A camera with matching RGB and depth resolutions (scale factor 1). -/
def camC3 : Camera := ⟨8, 8, some frameC3⟩

/-- The default `DepthConfig`. -/
def cfgDefault : DepthConfig := {}

/-- C3 witness: the amended statement on the concrete contour list. -/
theorem detectBall_center_and_screen_depth_witness :
    ∃ largest ∈ [contourSmall, contourEx].filter (fun k => k.area ≥ ((30 : ℤ) : ℚ)),
      (∀ k ∈ [contourSmall, contourEx].filter (fun k => k.area ≥ ((30 : ℤ) : ℚ)),
        k.area ≤ largest.area) ∧
      detectBall (some tbEx) 30 smDepth3 [contourSmall, contourEx] =
        some (largest.rx + (largest.rw : ℤ) / 2, largest.ry + (largest.rh : ℤ) / 2,
          if smDepth3.getScreenDepth = 0 then 1 else smDepth3.getScreenDepth) :=
  detectBall_center_and_screen_depth tbEx 30 smDepth3 [contourSmall, contourEx]
    contourEx [] (by decide)

/-- C3 counterexample: on a frame whose only qualifying contour has center
`(5,7)`, `detect_ball` returns depth 3 m — the configured screen depth —
while the depth measurement service measures 1.2 m at `(5,7)` on the
current depth frame; the returned depth is not the DepthSampler-derived
value at that point. -/
theorem detectBall_depth_is_not_sampler_depth :
    detectBall (some tbEx) 30 smDepth3 [contourSmall, contourEx] =
      some (5, 7, 3) ∧
    (measureAtRgbCoords cfgDefault camC3 (DMSState.init cfgDefault) 5 7).1 =
      6/5 ∧
    (3 : ℚ) ≠ 6/5 := by
  refine ⟨by decide, ?_, by norm_num⟩
  rw [measureAtRgbCoords]
  rw [scaleRgbToDepthCoords]
  norm_num [camC3, frameC3, DMSState.init, cfgDefault, pyInt,
    validateAndInterpolate, isValidDepth]

/-! ## Claims about the depth sampler -/

/-- Coordinate scaling only touches the resolution cache: the last-valid
cache, in particular, is unchanged. -/
theorem scale_preserves_lastValid (cam : Camera) (st : DMSState) (x y : ℤ) :
    (scaleRgbToDepthCoords cam st x y).2.lastValidDepthM = st.lastValidDepthM := by
  rw [scaleRgbToDepthCoords]
  dsimp only
  repeat' split
  all_goals rfl

/-- The failure condition of `measure_at_rgb_coords`: a zero RGB dimension
(`ZeroDivisionError` caught by the broad handler), no depth frame, an
out-of-bounds scaled coordinate, or a sample whose validation and
interpolation both fail. -/
def measureFails (cfg : DepthConfig) (cam : Camera) (st : DMSState)
    (x y : ℤ) : Prop :=
  (scaleRgbToDepthCoords cam
    { st with measurementCount := st.measurementCount + 1 } x y).1 = none ∨
  cam.depthFrame = none ∨
  (∃ f dx dy, cam.depthFrame = some f ∧
    (scaleRgbToDepthCoords cam
      { st with measurementCount := st.measurementCount + 1 } x y).1 =
        some (dx, dy) ∧
    (¬(0 ≤ dx ∧ dx < (f.w : ℤ) ∧ 0 ≤ dy ∧ dy < (f.h : ℤ)) ∨
      validateAndInterpolate cfg (f.data dy.toNat dx.toNat) (some f) dx dy < 0))

/-- `scaleRgbToDepthCoords` matched as a pair preserves the last-valid
cache. -/
theorem scale_pair_preserves_lastValid : ∀ (cam' : Camera) (st' : DMSState)
    (x' y' : ℤ) (o : Option (ℤ × ℤ)) (st1 : DMSState),
    scaleRgbToDepthCoords cam' st' x' y' = (o, st1) →
    st1.lastValidDepthM = st'.lastValidDepthM := by
  intro cam' st' x' y' o st1 h
  have := scale_preserves_lastValid cam' st' x' y'
  rw [h] at this
  exact this

/-- `measure_at_rgb_coords` returns a non-negative value whenever the
cache is non-negative, and always leaves the cache equal to the value it
just returned. -/
theorem measure_nonneg_and_caches (cfg' : DepthConfig) (cam' : Camera)
    (st' : DMSState) (x' y' : ℤ) (hc : 0 ≤ st'.lastValidDepthM) :
    0 ≤ (measureAtRgbCoords cfg' cam' st' x' y').1 ∧
    (measureAtRgbCoords cfg' cam' st' x' y').2.lastValidDepthM =
      (measureAtRgbCoords cfg' cam' st' x' y').1 := by
  rw [measureAtRgbCoords]
  dsimp only
  split
  · rename_i st1 heq
    refine ⟨?_, by simp [getFallbackDepthM]⟩
    simpa [getFallbackDepthM, scale_pair_preserves_lastValid _ _ _ _ _ _ heq] using hc
  · rename_i dx dy st1 heq
    split
    · refine ⟨?_, by simp [getFallbackDepthM]⟩
      simpa [getFallbackDepthM, scale_pair_preserves_lastValid _ _ _ _ _ _ heq] using hc
    · rename_i f hframe
      split
      · refine ⟨?_, by simp [getFallbackDepthM]⟩
        simpa [getFallbackDepthM, scale_pair_preserves_lastValid _ _ _ _ _ _ heq] using hc
      · split
        · rename_i hval
          exact ⟨hval, rfl⟩
        · refine ⟨?_, by simp [getFallbackDepthM]⟩
          simpa [getFallbackDepthM, scale_pair_preserves_lastValid _ _ _ _ _ _ heq] using hc

/-- Every failure path of `measure_at_rgb_coords` returns the cached last
valid value. -/
theorem measureFails_returns_cache (cfg' : DepthConfig) (cam' : Camera)
    (st' : DMSState) (x' y' : ℤ) (hf : measureFails cfg' cam' st' x' y') :
    (measureAtRgbCoords cfg' cam' st' x' y').1 = st'.lastValidDepthM := by
  rw [measureAtRgbCoords]
  dsimp only
  split
  · rename_i st1 heq
    simp [getFallbackDepthM, scale_pair_preserves_lastValid _ _ _ _ _ _ heq]
  · rename_i dx dy st1 heq
    have hlv := scale_pair_preserves_lastValid _ _ _ _ _ _ heq
    split
    · rename_i hframe
      simp [getFallbackDepthM, hlv]
    · rename_i f hframe
      split
      · simp [getFallbackDepthM, hlv]
      · rename_i hbounds
        rcases hf with hf | hf | hf
        · rw [heq] at hf; exact absurd hf (by simp)
        · rw [hf] at hframe; exact absurd hframe (by simp)
        · obtain ⟨f', dx', dy', hframe', hsc, hbad⟩ := hf
          rw [hframe'] at hframe
          injection hframe with hff
          subst hff
          rw [heq] at hsc
          simp only [Option.some.injEq, Prod.mk.injEq] at hsc
          obtain ⟨h1, h2⟩ := hsc
          subst h1; subst h2
          rcases hbad with hb | hb
          · exact absurd (not_not.mp hbounds) hb
          · rw [if_neg (not_le.mpr hb)]
            simp [getFallbackDepthM, hlv]

/-- C9: `measure_at_rgb_coords` never returns a negative value to its
caller (given the cache invariant `0 ≤ last_valid`, which holds from the
initial reference value and is preserved), the cache always equals the
value just returned, every failure path returns the cached last valid
value, and after a measurement returning `v` the next failing measurement
(no depth frame) returns `v` again. -/
theorem measure_fallback_behavior (cfg : DepthConfig) (cam : Camera)
    (st : DMSState) (x y : ℤ) (hcache : 0 ≤ st.lastValidDepthM) :
    (0 ≤ (measureAtRgbCoords cfg cam st x y).1) ∧
    ((measureAtRgbCoords cfg cam st x y).2.lastValidDepthM =
      (measureAtRgbCoords cfg cam st x y).1) ∧
    (measureFails cfg cam st x y →
      (measureAtRgbCoords cfg cam st x y).1 = st.lastValidDepthM) ∧
    (∀ (cam2 : Camera) (x2 y2 : ℤ), cam2.depthFrame = none →
      (measureAtRgbCoords cfg cam2 (measureAtRgbCoords cfg cam st x y).2 x2 y2).1 =
        (measureAtRgbCoords cfg cam st x y).1) := by
  refine ⟨(measure_nonneg_and_caches cfg cam st x y hcache).1,
    (measure_nonneg_and_caches cfg cam st x y hcache).2,
    measureFails_returns_cache cfg cam st x y, ?_⟩
  intro cam2 x2 y2 hnone
  have h2 := measureFails_returns_cache cfg cam2
    (measureAtRgbCoords cfg cam st x y).2 x2 y2 (Or.inr (Or.inl hnone))
  rw [h2, (measure_nonneg_and_caches cfg cam st x y hcache).2]

/-- C9 witness: with no depth frame available, the service returns the
cached initial reference value (2 m), which is non-negative. -/
theorem measure_fallback_behavior_witness :
    0 ≤ (measureAtRgbCoords cfgDefault ⟨8, 8, none⟩ (DMSState.init cfgDefault) 1 1).1 ∧
    (measureAtRgbCoords cfgDefault ⟨8, 8, none⟩ (DMSState.init cfgDefault) 1 1).1 =
      (DMSState.init cfgDefault).lastValidDepthM :=
  ⟨(measure_fallback_behavior cfgDefault ⟨8, 8, none⟩ (DMSState.init cfgDefault) 1 1
      (by norm_num [DMSState.init, cfgDefault])).1,
   (measure_fallback_behavior cfgDefault ⟨8, 8, none⟩ (DMSState.init cfgDefault) 1 1
      (by norm_num [DMSState.init, cfgDefault])).2.2.1 (Or.inr (Or.inl rfl))⟩

/-! ## The interpolation range law -/

/-- The inverse-distance weighted sums are bounded by `a·Σw` and `b·Σw`
when every sample lies in `[a, b]`. -/
theorem weighted_sum_bounds (a b : ℕ) (values : List (ℕ × ℕ))
    (h : ∀ p ∈ values, a ≤ p.1 ∧ p.1 ≤ b) :
    (a : ℚ) * (values.map (fun p => (1 : ℚ) / ((p.2 : ℚ) + 1))).sum ≤
      (values.map (fun p => (p.1 : ℚ) * ((1 : ℚ) / ((p.2 : ℚ) + 1)))).sum ∧
    (values.map (fun p => (p.1 : ℚ) * ((1 : ℚ) / ((p.2 : ℚ) + 1)))).sum ≤
      (b : ℚ) * (values.map (fun p => (1 : ℚ) / ((p.2 : ℚ) + 1))).sum := by
  induction values with
  | nil => simp
  | cons p t ih =>
      have hp := h p (List.mem_cons_self _ _)
      have ht := ih (fun q hq => h q (List.mem_cons.mpr (Or.inr hq)))
      have hwpos : (0 : ℚ) < 1 / ((p.2 : ℚ) + 1) := by positivity
      have hlow : (a : ℚ) * (1 / ((p.2 : ℚ) + 1)) ≤ (p.1 : ℚ) * (1 / ((p.2 : ℚ) + 1)) := by
        apply mul_le_mul_of_nonneg_right _ (le_of_lt hwpos)
        exact_mod_cast hp.1
      have hhigh : (p.1 : ℚ) * (1 / ((p.2 : ℚ) + 1)) ≤ (b : ℚ) * (1 / ((p.2 : ℚ) + 1)) := by
        apply mul_le_mul_of_nonneg_right _ (le_of_lt hwpos)
        exact_mod_cast hp.2
      simp only [List.map_cons, List.sum_cons, mul_add]
      exact ⟨by linarith [ht.1], by linarith [ht.2]⟩

/-- Python `int()` truncation of a value in `[a, b]` (naturals) stays in
`[a, b]`. -/
theorem pyInt_bounds (q : ℚ) (a b : ℕ) (h1 : (a : ℚ) ≤ q) (h2 : q ≤ (b : ℚ)) :
    (a : ℤ) ≤ pyInt q ∧ pyInt q ≤ (b : ℤ) := by
  have hq : 0 ≤ q := le_trans (by positivity) h1
  rw [pyInt, if_neg (not_lt.mpr hq)]
  constructor
  · exact Int.le_floor.mpr (by exact_mod_cast h1)
  · have := Int.floor_le_floor h2
    rwa [Int.floor_natCast] at this

/-- The weighted average of a nonempty sample list within `[a, b]` lies in
`[a, b]`: the averaging step cannot extrapolate beyond its inputs. -/
theorem calculateWeightedAverage_bounds (values : List (ℕ × ℕ)) (a b : ℕ)
    (hne : values ≠ []) (hab : ∀ p ∈ values, a ≤ p.1 ∧ p.1 ≤ b) :
    (a : ℤ) ≤ calculateWeightedAverage values ∧
    calculateWeightedAverage values ≤ (b : ℤ) := by
  match values with
  | [] => exact absurd rfl hne
  | p :: t =>
      simp only [calculateWeightedAverage]
      have htw : (0 : ℚ) <
          ((p :: t).map (fun q => (1 : ℚ) / ((q.2 : ℚ) + 1))).sum := by
        apply List.sum_pos
        · intro w hw
          obtain ⟨q, -, hq⟩ := List.mem_map.mp hw
          rw [← hq]; positivity
        · simp
      rw [if_pos htw]
      obtain ⟨hlo, hhi⟩ := weighted_sum_bounds a b (p :: t) hab
      have h1 : (a : ℚ) ≤
          ((p :: t).map (fun q => (q.1 : ℚ) * ((1 : ℚ) / ((q.2 : ℚ) + 1)))).sum /
            ((p :: t).map (fun q => (1 : ℚ) / ((q.2 : ℚ) + 1))).sum :=
        (le_div_iff htw).mpr hlo
      have h2 : ((p :: t).map (fun q => (q.1 : ℚ) * ((1 : ℚ) / ((q.2 : ℚ) + 1)))).sum /
            ((p :: t).map (fun q => (1 : ℚ) / ((q.2 : ℚ) + 1))).sum ≤ (b : ℚ) :=
        (div_le_iff htw).mpr hhi
      exact pyInt_bounds _ a b h1 h2

/-- Background filtering only discards samples: the result is a subset of
the input, and it is nonempty whenever the input is. -/
theorem filterBackgroundPixels_subset (values : List (ℕ × ℕ)) (ref : ℤ) :
    (∀ p ∈ filterBackgroundPixels values ref, p ∈ values) ∧
    (values ≠ [] → filterBackgroundPixels values ref ≠ []) := by
  simp only [filterBackgroundPixels]
  split
  · exact ⟨fun p hp => hp, fun h => h⟩
  · split
    · split
      · split
        · exact ⟨fun p hp => hp, fun h => h⟩
        · rename_i heq2
          constructor
          · intro p hp
            rw [← heq2] at hp
            exact (List.mem_filter.mp hp).1
          · intro _
            simp
      · rename_i heq
        constructor
        · intro p hp
          rw [← heq] at hp
          exact (List.mem_filter.mp hp).1
        · intro _
          simp
    · exact ⟨fun p hp => hp, fun h => h⟩

/-- `is_valid_depth` holds for a non-negative value inside the configured
range. -/
theorem isValidDepth_true (cfg : DepthConfig) (d : ℚ) (h0 : 0 ≤ d)
    (h1 : cfg.minValidDepthM ≤ d) (h2 : d ≤ cfg.maxValidDepthM) :
    isValidDepth cfg d = true := by
  rw [isValidDepth, if_neg (not_lt.mpr h0)]
  simp [h1, h2]

/-- The interpolation result lies in `[a, b]` meters (after mm→m
conversion) whenever all valid neighbor samples lie in `[a, b]` mm and
that interval sits inside the configured valid range. -/
theorem interpolateFromNeighbors_bounds (cfg : DepthConfig) (f : DFrame)
    (x y : ℤ) (small : Bool) (a b : ℕ)
    (hne : neighborSamples f x y
      (if small then cfg.interpolationRadius * 2 else cfg.interpolationRadius) ≠ [])
    (hab : ∀ p ∈ neighborSamples f x y
      (if small then cfg.interpolationRadius * 2 else cfg.interpolationRadius),
      a ≤ p.1 ∧ p.1 ≤ b)
    (hmin : cfg.minValidDepthM ≤ (a : ℚ) / 1000)
    (hmax : (b : ℚ) / 1000 ≤ cfg.maxValidDepthM) :
    (a : ℚ) / 1000 ≤ interpolateFromNeighbors cfg (some f) x y small ∧
    interpolateFromNeighbors cfg (some f) x y small ≤ (b : ℚ) / 1000 := by
  simp only [interpolateFromNeighbors]
  split
  · rename_i heq
    exact absurd heq hne
  · rename_i p l heq
    rw [heq] at hab
    have hV : (p :: l : List (ℕ × ℕ)) ≠ [] := by simp
    obtain ⟨hwlo, hwhi⟩ := calculateWeightedAverage_bounds (p :: l) a b hV hab
    obtain ⟨hsub, hfne⟩ := filterBackgroundPixels_subset (p :: l)
      (calculateWeightedAverage (p :: l))
    have hfab : ∀ q ∈ filterBackgroundPixels (p :: l)
        (calculateWeightedAverage (p :: l)), a ≤ q.1 ∧ q.1 ≤ b :=
      fun q hq => hab q (hsub q hq)
    rw [heq]
    match hfeq : filterBackgroundPixels (p :: l) (calculateWeightedAverage (p :: l)) with
    | [] => exact absurd hfeq (hfne hV)
    | q :: m =>
        rw [hfeq] at hfab
        obtain ⟨hflo, hfhi⟩ := calculateWeightedAverage_bounds (q :: m) a b
          (by simp) hfab
        have hcastlo : (a : ℚ) / 1000 ≤
            ((calculateWeightedAverage (q :: m) : ℚ)) / 1000 := by
          apply div_le_div_of_nonneg_right _ (by norm_num)
          exact_mod_cast hflo
        have hcasthi : ((calculateWeightedAverage (q :: m) : ℚ)) / 1000 ≤
            (b : ℚ) / 1000 := by
          apply div_le_div_of_nonneg_right _ (by norm_num)
          exact_mod_cast hfhi
        have h0 : (0 : ℚ) ≤ (calculateWeightedAverage (q :: m) : ℚ) / 1000 :=
          le_trans (by positivity) hcastlo
        have hvalid : isValidDepth cfg ((calculateWeightedAverage (q :: m) : ℚ) / 1000) = true :=
          isValidDepth_true cfg _ h0 (le_trans hmin hcastlo) (le_trans hcasthi hmax)
        rw [hvalid]
        exact ⟨hcastlo, hcasthi⟩

/-- C7 (amended): the inverse-distance weighted average — before and after
background filtering — of samples within `[a, b]` mm stays within
`[a, b]`; and `measure_at_rgb_coords` at an invalid (sensor-marker) center
pixel whose valid neighbor samples all lie in `[a, b]` returns a value in
`[a/1000, b/1000]` meters, *provided* `[a, b]` lies inside the configured
valid depth range (otherwise the interpolated value is rejected and the
cached fallback, which need not lie in `[a, b]`, is returned instead). -/
theorem measure_range_law (cfg : DepthConfig) (cam : Camera) (st : DMSState)
    (x y : ℤ) (f : DFrame) (dx dy : ℤ) (a b : ℕ)
    (hframe : cam.depthFrame = some f)
    (hscale : (scaleRgbToDepthCoords cam
      { st with measurementCount := st.measurementCount + 1 } x y).1 =
        some (dx, dy))
    (hbounds : 0 ≤ dx ∧ dx < (f.w : ℤ) ∧ 0 ≤ dy ∧ dy < (f.h : ℤ))
    (hinvalid : f.data dy.toNat dx.toNat = 0 ∨ f.data dy.toNat dx.toNat ≥ 65535)
    (hne : neighborSamples f dx dy (cfg.interpolationRadius * 2) ≠ [])
    (hab : ∀ p ∈ neighborSamples f dx dy (cfg.interpolationRadius * 2),
      a ≤ p.1 ∧ p.1 ≤ b)
    (hmin : cfg.minValidDepthM ≤ (a : ℚ) / 1000)
    (hmax : (b : ℚ) / 1000 ≤ cfg.maxValidDepthM) :
    ((a : ℚ) / 1000 ≤ (measureAtRgbCoords cfg cam st x y).1 ∧
      (measureAtRgbCoords cfg cam st x y).1 ≤ (b : ℚ) / 1000) ∧
    (∀ (values : List (ℕ × ℕ)) (ref : ℤ), values ≠ [] →
      (∀ p ∈ values, a ≤ p.1 ∧ p.1 ≤ b) →
      ((a : ℤ) ≤ calculateWeightedAverage values ∧
        calculateWeightedAverage values ≤ (b : ℤ)) ∧
      ((a : ℤ) ≤ calculateWeightedAverage (filterBackgroundPixels values ref) ∧
        calculateWeightedAverage (filterBackgroundPixels values ref) ≤ (b : ℤ))) := by
  constructor
  · obtain ⟨hlo, hhi⟩ := interpolateFromNeighbors_bounds cfg f dx dy true a b
      (by simpa using hne) (by simpa using hab) hmin hmax
    have h0 : (0 : ℚ) ≤ interpolateFromNeighbors cfg (some f) dx dy true :=
      le_trans (by positivity) hlo
    have hvalid : isValidDepth cfg (interpolateFromNeighbors cfg (some f) dx dy true) = true :=
      isValidDepth_true cfg _ h0 (le_trans hmin hlo) (le_trans hhi hmax)
    have hval : validateAndInterpolate cfg (f.data dy.toNat dx.toNat) (some f) dx dy =
        interpolateFromNeighbors cfg (some f) dx dy true := by
      rw [validateAndInterpolate, if_pos hinvalid]
      dsimp only
      rw [if_pos ⟨h0, hvalid⟩]
    rw [measureAtRgbCoords]
    dsimp only
    split
    · rename_i st1 heq
      rw [heq] at hscale
      exact absurd hscale (by simp)
    · rename_i dx' dy' st1 heq
      rw [heq] at hscale
      have hxy : dx' = dx ∧ dy' = dy := by simpa using hscale
      obtain ⟨h1, h2⟩ := hxy
      subst h1; subst h2
      rw [hframe]
      dsimp only
      rw [if_neg (not_not_intro hbounds), hval, if_pos h0]
      exact ⟨hlo, hhi⟩
  · intro values ref hvne hvab
    refine ⟨calculateWeightedAverage_bounds values a b hvne hvab, ?_⟩
    obtain ⟨hsub, hfne⟩ := filterBackgroundPixels_subset values ref
    exact calculateWeightedAverage_bounds _ a b (hfne hvne)
      (fun p hp => hvab p (hsub p hp))

/-- `pyInt` is the identity on integers. -/
theorem pyInt_intCast (x : ℤ) : pyInt ((x : ℚ)) = x := by
  rw [pyInt]
  split
  · rw [← Int.cast_neg, Int.floor_intCast, neg_neg]
  · exact Int.floor_intCast x

/-- Coordinate scaling with equal square RGB and depth resolutions is the
identity on in-range coordinates (when the resolution cache is cold). -/
theorem scale_square_eval (f : DFrame) (n : ℕ) (st : DMSState) (x y : ℤ)
    (hfw : f.w = n) (hfh : f.h = n) (hn : 0 < n)
    (hw : st.cachedDepthFrameWidth = none)
    (hx : 0 ≤ x) (hx2 : x ≤ (n : ℤ) - 1) (hy : 0 ≤ y) (hy2 : y ≤ (n : ℤ) - 1) :
    (scaleRgbToDepthCoords ⟨n, n, some f⟩ st x y).1 = some (x, y) := by
  rw [scaleRgbToDepthCoords]
  dsimp only
  rw [hw]
  dsimp only
  rw [hfw, hfh]
  rw [if_neg (by omega)]
  have hdiv : ((n : ℚ)) / ((n : ℚ)) = 1 := div_self (by exact_mod_cast hn.ne')
  rw [hdiv]
  rw [mul_one, mul_one, pyInt_intCast, pyInt_intCast]
  rw [min_eq_left (by omega), min_eq_left (by omega),
    max_eq_right hx, max_eq_right hy]

/-- A 3×3 depth frame whose center sample is the invalid marker 0 and
whose other samples are 300 mm (0.3 m, below the valid range). -/
def frame300 : DFrame := ⟨3, 3, fun y x => if x = 1 ∧ y = 1 then 0 else 300⟩

/-- Camera for `frame300` with matching RGB resolution. -/
def cam300 : Camera := ⟨3, 3, some frame300⟩

/-- The valid neighbors of the invalid center of `frame300`: eight 300 mm
samples at truncated distance 1. -/
theorem neighborSamples_frame300 :
    neighborSamples frame300 1 1 (cfgDefault.interpolationRadius * 2) =
      [(300, 1), (300, 1), (300, 1), (300, 1), (300, 1), (300, 1), (300, 1),
        (300, 1)] := by
  decide

theorem calcWA_frame300 :
    calculateWeightedAverage
      [(300, 1), (300, 1), (300, 1), (300, 1), (300, 1), (300, 1), (300, 1),
        (300, 1)] = 300 := by
  norm_num [calculateWeightedAverage, pyInt]

theorem filterBG_frame300 :
    filterBackgroundPixels
      [(300, 1), (300, 1), (300, 1), (300, 1), (300, 1), (300, 1), (300, 1),
        (300, 1)] 300 =
      [(300, 1), (300, 1), (300, 1), (300, 1), (300, 1), (300, 1), (300, 1),
        (300, 1)] := by
  decide

/-- Interpolation at the center of `frame300` fails: the 0.3 m average is
below the valid range. -/
theorem interp_frame300 :
    interpolateFromNeighbors cfgDefault (some frame300) 1 1 true = -1 := by
  rw [interpolateFromNeighbors]
  dsimp only
  rw [show (if (true : Bool) then cfgDefault.interpolationRadius * 2
      else cfgDefault.interpolationRadius) = cfgDefault.interpolationRadius * 2
    from rfl]
  rw [neighborSamples_frame300]
  dsimp only
  rw [calcWA_frame300, filterBG_frame300, calcWA_frame300]
  norm_num [isValidDepth, cfgDefault]

/-- Validation of the invalid center sample of `frame300` fails outright. -/
theorem validate_frame300 :
    validateAndInterpolate cfgDefault (frame300.data 1 1) (some frame300) 1 1 =
      -1 := by
  rw [show frame300.data 1 1 = 0 from rfl]
  rw [validateAndInterpolate]
  rw [if_pos (Or.inl rfl)]
  rw [interp_frame300]
  norm_num

/-- C7 counterexample: on `frame300` every valid neighbor sample lies in
`[300, 300]` mm and the center is invalid, yet `measure_at_rgb_coords`
returns 2 m — the cached fallback, far outside `[0.3, 0.3]` m — because
the 0.3 m weighted average is rejected by the valid-range check.  The
claim requires a value within `[a, b]` for *any* such frame. -/
theorem measure_outside_sample_range :
    (∀ p ∈ neighborSamples frame300 1 1 (cfgDefault.interpolationRadius * 2),
      300 ≤ p.1 ∧ p.1 ≤ 300) ∧
    neighborSamples frame300 1 1 (cfgDefault.interpolationRadius * 2) ≠ [] ∧
    frame300.data 1 1 = 0 ∧
    (measureAtRgbCoords cfgDefault cam300 (DMSState.init cfgDefault) 1 1).1 = 2 ∧
    ¬((300 : ℚ) / 1000 ≤
        (measureAtRgbCoords cfgDefault cam300 (DMSState.init cfgDefault) 1 1).1 ∧
      (measureAtRgbCoords cfgDefault cam300 (DMSState.init cfgDefault) 1 1).1 ≤
        (300 : ℚ) / 1000) := by
  have hscale : (scaleRgbToDepthCoords cam300
      { DMSState.init cfgDefault with
        measurementCount := (DMSState.init cfgDefault).measurementCount + 1 } 1 1).1 =
        some (1, 1) :=
    scale_square_eval frame300 3 _ 1 1 rfl rfl (by norm_num) rfl
      (by norm_num) (by norm_num) (by norm_num) (by norm_num)
  have hmeas : (measureAtRgbCoords cfgDefault cam300 (DMSState.init cfgDefault) 1 1).1 = 2 := by
    have h := measureFails_returns_cache cfgDefault cam300 (DMSState.init cfgDefault) 1 1
      (Or.inr (Or.inr ⟨frame300, 1, 1, rfl, hscale,
        Or.inr (by rw [show ((1 : ℤ)).toNat = 1 from rfl, validate_frame300]; norm_num)⟩))
    rw [h]
    norm_num [DMSState.init, cfgDefault]
  refine ⟨by decide, by decide, rfl, hmeas, ?_⟩
  rw [hmeas]
  norm_num

/-- A 3×3 depth frame with invalid center and 1200 mm (in-range) samples
elsewhere. -/
def frame1200 : DFrame := ⟨3, 3, fun y x => if x = 1 ∧ y = 1 then 0 else 1200⟩

/-- Camera for `frame1200` with matching RGB resolution. -/
def cam1200 : Camera := ⟨3, 3, some frame1200⟩

/-- C7 witness: with all neighbor samples at 1200 mm (inside the valid
range), measurement at the invalid center stays within `[1.2, 1.2]` m. -/
theorem measure_range_law_witness :
    (1200 : ℚ) / 1000 ≤
      (measureAtRgbCoords cfgDefault cam1200 (DMSState.init cfgDefault) 1 1).1 ∧
    (measureAtRgbCoords cfgDefault cam1200 (DMSState.init cfgDefault) 1 1).1 ≤
      (1200 : ℚ) / 1000 :=
  (measure_range_law cfgDefault cam1200 (DMSState.init cfgDefault) 1 1
    frame1200 1 1 1200 1200 rfl
    (scale_square_eval frame1200 3 _ 1 1 rfl rfl (by norm_num) rfl
      (by norm_num) (by norm_num) (by norm_num) (by norm_num))
    (by decide) (Or.inl rfl) (by decide) (by decide)
    (by norm_num [cfgDefault]) (by norm_num [cfgDefault])).1

/-! ## Background exclusion -/

/-- A 5×5 depth frame: invalid center, a tight 1200 mm ring around it,
and a surrounding 1700 mm layer (a 500 mm step). -/
def frame5 : DFrame :=
  ⟨5, 5, fun y x =>
    if x = 2 ∧ y = 2 then 0
    else if 1 ≤ x ∧ x ≤ 3 ∧ 1 ≤ y ∧ y ≤ 3 then 1200 else 1700⟩

/-- Camera for `frame5` with matching RGB resolution. -/
def cam5 : Camera := ⟨5, 5, some frame5⟩

/-- The valid neighbors of the center of `frame5`: eight near samples at
distance 1 and sixteen far samples at truncated distance 2. -/
theorem neighborSamples_frame5 :
    neighborSamples frame5 2 2 (cfgDefault.interpolationRadius * 2) =
      [(1700, 2), (1700, 2), (1700, 2), (1700, 2), (1700, 2),
       (1700, 2), (1200, 1), (1200, 1), (1200, 1), (1700, 2),
       (1700, 2), (1200, 1), (1200, 1), (1700, 2),
       (1700, 2), (1200, 1), (1200, 1), (1200, 1), (1700, 2),
       (1700, 2), (1700, 2), (1700, 2), (1700, 2), (1700, 2)] := by
  decide

theorem calcWA_frame5 :
    calculateWeightedAverage
      [(1700, 2), (1700, 2), (1700, 2), (1700, 2), (1700, 2),
       (1700, 2), (1200, 1), (1200, 1), (1200, 1), (1700, 2),
       (1700, 2), (1200, 1), (1200, 1), (1700, 2),
       (1700, 2), (1200, 1), (1200, 1), (1200, 1), (1700, 2),
       (1700, 2), (1700, 2), (1700, 2), (1700, 2), (1700, 2)] = 1485 := by
  norm_num [calculateWeightedAverage, pyInt]

/-- The 500 mm step exceeds the 200 mm threshold, so filtering keeps only
the samples at most `1200 + 500/5 = 1300` mm: the near ring. -/
theorem filterBG_frame5 :
    filterBackgroundPixels
      [(1700, 2), (1700, 2), (1700, 2), (1700, 2), (1700, 2),
       (1700, 2), (1200, 1), (1200, 1), (1200, 1), (1700, 2),
       (1700, 2), (1200, 1), (1200, 1), (1700, 2),
       (1700, 2), (1200, 1), (1200, 1), (1200, 1), (1700, 2),
       (1700, 2), (1700, 2), (1700, 2), (1700, 2), (1700, 2)] 1485 =
      [(1200, 1), (1200, 1), (1200, 1), (1200, 1), (1200, 1), (1200, 1),
        (1200, 1), (1200, 1)] := by
  decide

theorem calcWA_frame5_near :
    calculateWeightedAverage
      [(1200, 1), (1200, 1), (1200, 1), (1200, 1), (1200, 1), (1200, 1),
        (1200, 1), (1200, 1)] = 1200 := by
  norm_num [calculateWeightedAverage, pyInt]

/-- Interpolation at the center of `frame5` returns the near cluster's
1.2 m, not the 1.485 m unfiltered average. -/
theorem interp_frame5 :
    interpolateFromNeighbors cfgDefault (some frame5) 2 2 true = 6/5 := by
  rw [interpolateFromNeighbors]
  dsimp only
  rw [show (if (true : Bool) then cfgDefault.interpolationRadius * 2
      else cfgDefault.interpolationRadius) = cfgDefault.interpolationRadius * 2
    from rfl]
  rw [neighborSamples_frame5]
  dsimp only
  rw [calcWA_frame5, filterBG_frame5, calcWA_frame5_near]
  norm_num [isValidDepth, cfgDefault]

theorem validate_frame5 :
    validateAndInterpolate cfgDefault (frame5.data 2 2) (some frame5) 2 2 =
      6/5 := by
  rw [show frame5.data 2 2 = 0 from rfl]
  rw [validateAndInterpolate]
  rw [if_pos (Or.inl rfl)]
  rw [interp_frame5]
  rw [if_pos ⟨by norm_num, by norm_num [isValidDepth, cfgDefault]⟩]

/-- Measuring at the invalid center of `frame5` yields 1.2 m. -/
theorem measure_frame5 :
    (measureAtRgbCoords cfgDefault cam5 (DMSState.init cfgDefault) 2 2).1 =
      6/5 := by
  have hscale : (scaleRgbToDepthCoords cam5
      { DMSState.init cfgDefault with
        measurementCount := (DMSState.init cfgDefault).measurementCount + 1 } 2 2).1 =
        some (2, 2) :=
    scale_square_eval frame5 5 _ 2 2 rfl rfl (by norm_num) rfl
      (by norm_num) (by norm_num) (by norm_num) (by norm_num)
  rw [measureAtRgbCoords]
  dsimp only
  split
  · rename_i st1 heq
    rw [heq] at hscale
    exact absurd hscale (by simp)
  · rename_i dx dy st1 heq
    rw [heq] at hscale
    have hxy : dx = 2 ∧ dy = 2 := by simpa using hscale
    obtain ⟨h1, h2⟩ := hxy
    subst h1; subst h2
    rw [show cam5.depthFrame = some frame5 from rfl]
    dsimp only
    rw [if_neg (not_not_intro (by norm_num [frame5]))]
    rw [show ((2 : ℤ)).toNat = 2 from rfl, validate_frame5]
    rw [if_pos (by norm_num)]

/-- C8: when the sample range exceeds the 200 mm step threshold and the
primary filter keeps at least one sample, background filtering keeps
exactly the samples at most `min + int(0.2·range)`; consequently, on the
`frame5` fixture (1200 mm cluster surrounded by 1700 mm at a 500 mm step),
measuring at the invalid center returns a value below 1.4 m, closer to the
near cluster (1.2 m) than to the far one (1.7 m). -/
theorem background_filtering_excludes_far (values : List (ℕ × ℕ)) (ref : ℤ)
    (h3 : ¬ values.length < 3)
    (hrange : pyMax (values.map (·.1)) - pyMin (values.map (·.1)) > 200)
    (hfne : values.filter (fun p => p.1 ≤ pyMin (values.map (·.1)) +
      (pyMax (values.map (·.1)) - pyMin (values.map (·.1))) / 5) ≠ []) :
    (filterBackgroundPixels values ref =
      values.filter (fun p => p.1 ≤ pyMin (values.map (·.1)) +
        (pyMax (values.map (·.1)) - pyMin (values.map (·.1))) / 5)) ∧
    ((measureAtRgbCoords cfgDefault cam5 (DMSState.init cfgDefault) 2 2).1 <
        14/10 ∧
      |(measureAtRgbCoords cfgDefault cam5 (DMSState.init cfgDefault) 2 2).1 -
          12/10| <
        |(measureAtRgbCoords cfgDefault cam5 (DMSState.init cfgDefault) 2 2).1 -
          17/10|) := by
  constructor
  · simp only [filterBackgroundPixels]
    rw [if_neg h3, if_pos hrange]
    rcases hfe : values.filter (fun p => p.1 ≤ pyMin (values.map (·.1)) +
      (pyMax (values.map (·.1)) - pyMin (values.map (·.1))) / 5) with _ | ⟨q, qs⟩
    · exact absurd hfe hfne
    · rw [hfe]
  · rw [measure_frame5]
    norm_num

/-- C8 witness: the filter rule and the background-exclusion outcome on
the concrete near/far sample list of `frame5`. -/
theorem background_filtering_excludes_far_witness :
    (filterBackgroundPixels
      [(1700, 2), (1700, 2), (1700, 2), (1700, 2), (1700, 2),
       (1700, 2), (1200, 1), (1200, 1), (1200, 1), (1700, 2),
       (1700, 2), (1200, 1), (1200, 1), (1700, 2),
       (1700, 2), (1200, 1), (1200, 1), (1200, 1), (1700, 2),
       (1700, 2), (1700, 2), (1700, 2), (1700, 2), (1700, 2)] 1485 =
      [(1700, 2), (1700, 2), (1700, 2), (1700, 2), (1700, 2),
       (1700, 2), (1200, 1), (1200, 1), (1200, 1), (1700, 2),
       (1700, 2), (1200, 1), (1200, 1), (1700, 2),
       (1700, 2), (1200, 1), (1200, 1), (1200, 1), (1700, 2),
       (1700, 2), (1700, 2), (1700, 2), (1700, 2), (1700, 2)].filter (fun p => p.1 ≤ pyMin ([(1700, 2), (1700, 2), (1700, 2), (1700, 2), (1700, 2),
       (1700, 2), (1200, 1), (1200, 1), (1200, 1), (1700, 2),
       (1700, 2), (1200, 1), (1200, 1), (1700, 2),
       (1700, 2), (1200, 1), (1200, 1), (1200, 1), (1700, 2),
       (1700, 2), (1700, 2), (1700, 2), (1700, 2), (1700, 2)].map (·.1)) +
        (pyMax ([(1700, 2), (1700, 2), (1700, 2), (1700, 2), (1700, 2),
       (1700, 2), (1200, 1), (1200, 1), (1200, 1), (1700, 2),
       (1700, 2), (1200, 1), (1200, 1), (1700, 2),
       (1700, 2), (1200, 1), (1200, 1), (1200, 1), (1700, 2),
       (1700, 2), (1700, 2), (1700, 2), (1700, 2), (1700, 2)].map (·.1)) - pyMin ([(1700, 2), (1700, 2), (1700, 2), (1700, 2), (1700, 2),
       (1700, 2), (1200, 1), (1200, 1), (1200, 1), (1700, 2),
       (1700, 2), (1200, 1), (1200, 1), (1700, 2),
       (1700, 2), (1200, 1), (1200, 1), (1200, 1), (1700, 2),
       (1700, 2), (1700, 2), (1700, 2), (1700, 2), (1700, 2)].map (·.1))) / 5)) ∧
    ((measureAtRgbCoords cfgDefault cam5 (DMSState.init cfgDefault) 2 2).1 <
        14/10 ∧
      |(measureAtRgbCoords cfgDefault cam5 (DMSState.init cfgDefault) 2 2).1 -
          12/10| <
        |(measureAtRgbCoords cfgDefault cam5 (DMSState.init cfgDefault) 2 2).1 -
          17/10|) :=
  background_filtering_excludes_far
    [(1700, 2), (1700, 2), (1700, 2), (1700, 2), (1700, 2),
       (1700, 2), (1200, 1), (1200, 1), (1200, 1), (1700, 2),
       (1700, 2), (1200, 1), (1200, 1), (1700, 2),
       (1700, 2), (1200, 1), (1200, 1), (1200, 1), (1700, 2),
       (1700, 2), (1700, 2), (1700, 2), (1700, 2), (1700, 2)] 1485 (by decide) (by decide) (by decide)

end TTG
